import Mathlib

/-!
Verification of the Bond-executor core and linked-map utility of the
pactus repository. The repository snapshot under review contains only the
test files for these components; every implementation-level definition
below is therefore modelled from the specification text that was written
from the missing sources, following the spec's stated design
(`validate(snapshot) -> Result` followed by a separate infallible `apply`).
Addresses, public keys, amounts, sequences and heights are modelled as
natural numbers; maps are total functions into `Option`.
-/

/-- Modelled from the spec: the error taxonomy of section 7
(`util/errors` codes used by the executors; the package itself is not
under src/). All are ordinary validation rejections. -/
inductive ErrorCode where
  | invalidAddress
  | invalidPublicKey
  | invalidSequence
  | insufficientFunds
  | invalidHeight
  | invalidTx
deriving DecidableEq

/-- Modelled from the spec: an Account is {address, balance, sequence};
the address is the map key, so only balance and sequence are stored
(`types/account`, not under src/). -/
structure Account where
  balance : Nat
  sequence : Nat
deriving DecidableEq

/-- Modelled from the spec: a Validator record {public key (present once
known), stake, last-bonding-height, last-joined-height, unbonding-height
(0/unset if never unbonded)} (`types/validator`, not under src/). -/
structure Validator where
  pubKey : Option Nat
  stake : Nat
  lastBondingHeight : Nat
  lastJoinedHeight : Nat
  unbondingHeight : Nat
deriving DecidableEq

/-- Modelled from the spec: the protocol parameters the Bond executor
reads — fee fraction is irrelevant to the executor's rules, so only the
maximum stake and the unbonding cooldown span are kept
(`param` package, not under src/). -/
structure Params where
  maximumStake : Nat
  unbondInterval : Nat
deriving DecidableEq

/-- Modelled from the spec: the reserved treasury address
(`crypto.TreasuryAddress`, not under src/), which can never be a
validator; modelled as address 0. -/
def TreasuryAddress : Nat := 0

/-- Modelled from the spec: the height-scoped ledger sandbox of section
4.1 (`sandbox` package, not under src/): accounts and validators as
address-keyed maps, a read-only committee view (membership is all the
Bond executor consults), the current height, the committee-power delta
accumulator and the protocol parameters. -/
structure Sandbox where
  accounts : Nat → Option Account
  validators : Nat → Option Validator
  committee : List Nat
  curHeight : Nat
  powerDelta : Nat
  params : Params

/-- Modelled from the spec: `UpdateAccount` replaces the stored account
wholesale (section 4.1). -/
def Sandbox.UpdateAccount (sb : Sandbox) (addr : Nat) (acc : Account) : Sandbox :=
  { sb with accounts := fun a => if a = addr then some acc else sb.accounts a }

/-- Modelled from the spec: `UpdateValidator` replaces the stored
validator wholesale (section 4.1). -/
def Sandbox.UpdateValidator (sb : Sandbox) (addr : Nat) (val : Validator) : Sandbox :=
  { sb with validators := fun a => if a = addr then some val else sb.validators a }

/-- The sandbox's balance view of an address: absent accounts read as the
zero value (section 4.1: read accessors never fail). -/
def Sandbox.accountBalance (sb : Sandbox) (addr : Nat) : Nat :=
  match sb.accounts addr with
  | some acc => acc.balance
  | none => 0

/-- The sandbox's sequence view of an address, zero when absent. -/
def Sandbox.accountSequence (sb : Sandbox) (addr : Nat) : Nat :=
  match sb.accounts addr with
  | some acc => acc.sequence
  | none => 0

/-- The sandbox's stake view of an address: an Unknown validator has zero
stake (section 4.1: read accessors never fail). -/
def Sandbox.validatorStake (sb : Sandbox) (addr : Nat) : Nat :=
  match sb.validators addr with
  | some val => val.stake
  | none => 0

/-- The sandbox's last-bonding-height view of an address, zero when the
validator record is absent. -/
def Sandbox.validatorLastBonding (sb : Sandbox) (addr : Nat) : Nat :=
  match sb.validators addr with
  | some val => val.lastBondingHeight
  | none => 0

/-- Modelled from the spec: the Bond transaction payload
(`tx.NewBondTx`, not under src/): sequence, sender, receiver, optional
public key, amount and fee. The stamp and memo fields play no part in any
validation rule of section 4.3 and are omitted. -/
structure BondTx where
  sequence : Nat
  sender : Nat
  receiver : Nat
  pubKey : Option Nat
  amount : Nat
  fee : Nat
deriving DecidableEq

/-- Rule 7 condition of section 4.3: the receiver has a recorded
unbonding-height and the cooldown span has not elapsed relative to the
current height. An Unknown receiver is never blocked. -/
def unbondingBlocked (valOpt : Option Validator) (curHeight interval : Nat) : Bool :=
  match valOpt with
  | some val => val.unbondingHeight != 0 && curHeight - val.unbondingHeight < interval
  | none => false

/-- Rule 6 condition of section 4.3: the receiver's last-joined-height
marks it as freshly selected into the committee, modelled (after the
joining-committee test) as last-joined-height equal to the current
height. An Unknown receiver is never freshly joined. -/
def freshlyJoined (valOpt : Option Validator) (curHeight : Nat) : Bool :=
  match valOpt with
  | some val => val.lastJoinedHeight == curHeight
  | none => false

/-- Rule 8 of section 4.3: if the receiver is Unknown a public key is
required; if the receiver already has a recorded public key the
transaction's public key field must be absent. -/
def pubKeyRuleOK (valOpt : Option Validator) (txPub : Option Nat) : Bool :=
  match valOpt, txPub with
  | none, none => false
  | none, some _ => true
  | some _, none => true
  | some val, some _ => !val.pubKey.isSome

/-- Rule 9 condition of section 4.3: the resulting stake
(existing stake + amount) exceeds the configured maximum stake. -/
def stakeExceeded (valOpt : Option Validator) (amount maxStake : Nat) : Bool :=
  maxStake < (match valOpt with | some val => val.stake | none => 0) + amount

/-- Modelled from the spec: the validation phase of the Bond executor
(`execution/executor/execute_bond.go`, not under src/; only its tests
are), applying the rules of section 4.3 in their stated order, each
producing its distinct error signal. Rules 5 and 6 are enforced only in
strict mode (section 4.7); rule 9's rejection is `InvalidTx`
(section 7 lists exceeding maximum stake under `InvalidTx`). -/
def validateBond (strict : Bool) (trx : BondTx) (sb : Sandbox) : Option ErrorCode :=
  match sb.accounts trx.sender with
  | none => some .invalidAddress
  | some senderAcc =>
    if trx.receiver = TreasuryAddress then some .invalidPublicKey
    else if trx.sequence ≠ senderAcc.sequence + 1 then some .invalidSequence
    else if senderAcc.balance < trx.amount + trx.fee then some .insufficientFunds
    else if strict && sb.committee.contains trx.receiver then some .invalidTx
    else if strict && freshlyJoined (sb.validators trx.receiver) sb.curHeight then
      some .invalidTx
    else if unbondingBlocked (sb.validators trx.receiver) sb.curHeight
        sb.params.unbondInterval then some .invalidHeight
    else if !pubKeyRuleOK (sb.validators trx.receiver) trx.pubKey then
      some .invalidPublicKey
    else if stakeExceeded (sb.validators trx.receiver) trx.amount
        sb.params.maximumStake then some .invalidTx
    else none

/-- Modelled from the spec: `MakeNewValidator` — a fresh zero-stake
validator carrying the supplied public key (section 4.1). -/
def makeNewValidator (txPub : Option Nat) : Validator :=
  { pubKey := txPub, stake := 0, lastBondingHeight := 0
    lastJoinedHeight := 0, unbondingHeight := 0 }

/-- Modelled from the spec: the infallible apply phase of the Bond
executor (section 4.3): debit the sender by amount+fee, increment the
sender sequence, create-or-update the receiver validator with increased
stake and last-bonding-height = current height, and accumulate the
amount into the committee-power delta. Reached only after validation
passes, so the sender account is present. -/
def applyBond (trx : BondTx) (sb : Sandbox) : Sandbox :=
  match sb.accounts trx.sender with
  | none => sb
  | some senderAcc =>
    let oldVal := (sb.validators trx.receiver).getD (makeNewValidator trx.pubKey)
    let newVal := { oldVal with
      stake := oldVal.stake + trx.amount, lastBondingHeight := sb.curHeight }
    let newAcc := { senderAcc with
      balance := senderAcc.balance - (trx.amount + trx.fee)
      sequence := senderAcc.sequence + 1 }
    let sb1 := (sb.UpdateAccount trx.sender newAcc).UpdateValidator trx.receiver newVal
    { sb1 with powerDelta := sb.powerDelta + trx.amount }

/-- Modelled from the spec: the Bond executor object
(`NewBondExecutor(strict)`, not under src/): carries the execution mode
and the fee collected by the last successful execution, read back through
`Fee()`. -/
structure BondExecutor where
  strict : Bool
  fee : Nat
deriving DecidableEq

/-- Modelled from the spec: `NewBondExecutor` with the given mode and no
fee collected yet. -/
def NewBondExecutor (strict : Bool) : BondExecutor :=
  { strict := strict, fee := 0 }

/-- Modelled from the spec: `Fee()` — the fee recorded by the last
successful execution. -/
def BondExecutor.Fee (e : BondExecutor) : Nat := e.fee

/-- Modelled from the spec: `Execute` validates fully before mutating
(section 7); on failure the sandbox and the executor are returned
untouched alongside the error, on success the apply phase runs and the
transaction's fee is recorded on the executor. The Go method mutates the
sandbox and the executor in place; here both updated values are returned. -/
def BondExecutor.Execute (e : BondExecutor) (trx : BondTx) (sb : Sandbox) :
    Option ErrorCode × Sandbox × BondExecutor :=
  match validateBond e.strict trx sb with
  | some err => (some err, sb, e)
  | none => (none, applyBond trx sb, { e with fee := trx.fee })

/-- Modelled from the spec: the generic doubly linked list of
`util/linkedmap/doublylink.go`, which is not under src/ (only its tests
are); the spec classes it as an out-of-scope reusable ordered-sequence
utility, so it is modelled by its value sequence, the view its tests
observe through `Values()` and `Length()`. -/
structure DoublyLinkedList (α : Type) where
  items : List α
deriving DecidableEq

/-- Modelled from the spec: `NewDoublyLinkedList` — the empty list. -/
def NewDoublyLinkedList (α : Type) : DoublyLinkedList α := ⟨[]⟩

/-- Modelled from the spec: `InsertAtHead` prepends a value. -/
def DoublyLinkedList.InsertAtHead (l : DoublyLinkedList α) (x : α) :
    DoublyLinkedList α := ⟨x :: l.items⟩

/-- Modelled from the spec: `InsertAtTail` appends a value. -/
def DoublyLinkedList.InsertAtTail (l : DoublyLinkedList α) (x : α) :
    DoublyLinkedList α := ⟨l.items ++ [x]⟩

/-- Modelled from the spec: `DeleteAtHead` removes the head node when one
exists and does nothing on an empty list (the Go code returns early on a
nil head). -/
def DoublyLinkedList.DeleteAtHead (l : DoublyLinkedList α) : DoublyLinkedList α :=
  match l.items with
  | [] => l
  | _ :: rest => ⟨rest⟩

/-- Modelled from the spec: `DeleteAtTail` removes the tail node when one
exists and does nothing on an empty list (the Go code returns early on a
nil tail). -/
def DoublyLinkedList.DeleteAtTail (l : DoublyLinkedList α) : DoublyLinkedList α :=
  match l.items with
  | [] => l
  | _ :: _ => ⟨l.items.dropLast⟩

/-- Modelled from the spec: `Values()` — the stored values from head to
tail. -/
def DoublyLinkedList.Values (l : DoublyLinkedList α) : List α := l.items

/-- Modelled from the spec: `Length()` — the number of stored nodes. -/
def DoublyLinkedList.Length (l : DoublyLinkedList α) : Nat := l.items.length

/-! Helper lemmas shared by the claim theorems. -/

/-- The error component of `Execute` is exactly the validation outcome:
`Execute` is validate-then-apply and the apply phase reports no error. -/
lemma execute_fst (e : BondExecutor) (trx : BondTx) (sb : Sandbox) :
    (e.Execute trx sb).1 = validateBond e.strict trx sb := by
  unfold BondExecutor.Execute
  cases validateBond e.strict trx sb <;> rfl

/-- Successful execution means validation passed, the returned sandbox is
the applied one and the executor has recorded the transaction's fee. -/
lemma execute_success_inv (e : BondExecutor) (trx : BondTx) (sb sb2 : Sandbox)
    (e2 : BondExecutor) (h : e.Execute trx sb = (none, sb2, e2)) :
    validateBond e.strict trx sb = none ∧ sb2 = applyBond trx sb ∧
      e2 = { e with fee := trx.fee } := by
  unfold BondExecutor.Execute at h
  cases hv : validateBond e.strict trx sb <;> rw [hv] at h <;>
    simp [Prod.ext_iff] at h
  exact ⟨rfl, h.1.symm, h.2.symm⟩

/-- Passing validation pins down the early checks: the sender account
exists, the receiver is not the treasury, the sequence is the successor
of the sender's, and the balance covers amount plus fee. -/
lemma validateBond_none_inv (strict : Bool) (trx : BondTx) (sb : Sandbox)
    (h : validateBond strict trx sb = none) :
    ∃ acc, sb.accounts trx.sender = some acc ∧ trx.receiver ≠ TreasuryAddress ∧
      trx.sequence = acc.sequence + 1 ∧ trx.amount + trx.fee ≤ acc.balance := by
  cases hA : sb.accounts trx.sender with
  | none => simp only [validateBond, hA] at h; exact absurd h (by simp)
  | some acc =>
    simp only [validateBond, hA] at h
    split_ifs at h with h1 h2 h3
    exact ⟨acc, rfl, h1, not_ne_iff.mp h2, Nat.not_lt.mp h3⟩

/-- Under the early checks and with the two mode-dependent committee
conditions switched off, validation reduces to the unbonding, public-key
and maximum-stake rules. -/
lemma validateBond_reduce (strict : Bool) (trx : BondTx) (sb : Sandbox) (acc : Account)
    (hacc : sb.accounts trx.sender = some acc)
    (htre : trx.receiver ≠ TreasuryAddress)
    (hseq : trx.sequence = acc.sequence + 1)
    (hbal : trx.amount + trx.fee ≤ acc.balance)
    (hcom : (strict && sb.committee.contains trx.receiver) = false)
    (hfresh : (strict && freshlyJoined (sb.validators trx.receiver) sb.curHeight) = false) :
    validateBond strict trx sb =
      (if unbondingBlocked (sb.validators trx.receiver) sb.curHeight
          sb.params.unbondInterval then some .invalidHeight
       else if !pubKeyRuleOK (sb.validators trx.receiver) trx.pubKey then
         some .invalidPublicKey
       else if stakeExceeded (sb.validators trx.receiver) trx.amount
          sb.params.maximumStake then some .invalidTx
       else none) := by
  simp only [validateBond, hacc, hcom, hfresh, if_neg htre,
    if_neg (not_ne_iff.mpr hseq), if_neg (Nat.not_lt.mpr hbal),
    Bool.false_eq_true, if_false]

/-- The maximum-stake condition, phrased through the sandbox's stake
view of the receiver. -/
lemma stakeExceeded_iff (sb : Sandbox) (addr amt mx : Nat) :
    stakeExceeded (sb.validators addr) amt mx = true ↔
      mx < sb.validatorStake addr + amt := by
  unfold stakeExceeded Sandbox.validatorStake
  cases sb.validators addr <;> simp

/-- What the apply phase does, read back through the sandbox views: the
sender is debited by amount plus fee and its sequence advances, the
receiver's stake grows by the amount, its last-bonding-height becomes the
current height, and the power delta accrues the amount. -/
lemma applyBond_effects (trx : BondTx) (sb : Sandbox) (acc : Account)
    (hA : sb.accounts trx.sender = some acc) :
    (applyBond trx sb).accountBalance trx.sender
        = acc.balance - (trx.amount + trx.fee) ∧
    (applyBond trx sb).accounts trx.sender
        = some { acc with balance := acc.balance - (trx.amount + trx.fee)
                          sequence := acc.sequence + 1 } ∧
    (applyBond trx sb).validatorStake trx.receiver
        = sb.validatorStake trx.receiver + trx.amount ∧
    (applyBond trx sb).validatorLastBonding trx.receiver = sb.curHeight ∧
    (applyBond trx sb).powerDelta = sb.powerDelta + trx.amount := by
  unfold applyBond
  rw [hA]
  simp only [Sandbox.UpdateAccount, Sandbox.UpdateValidator,
    Sandbox.accountBalance, Sandbox.validatorStake, Sandbox.validatorLastBonding,
    if_pos rfl]
  cases hV : sb.validators trx.receiver <;>
    simp [hV, makeNewValidator]

/-! Concrete inputs used by the witnesses below. -/

/-- A sender account with balance 100 and sequence 0. -/
def accW : Account := { balance := 100, sequence := 0 }

/-- Parameters: maximum stake 1000, three-height unbonding cooldown. -/
def paramsW : Params := { maximumStake := 1000, unbondInterval := 3 }

/-- A sandbox holding only the sender account at address 1, no
validators, an empty committee, height 8. -/
def sbW : Sandbox :=
  { accounts := fun a => if a = 1 then some accW else none
    validators := fun _ => none
    committee := [], curHeight := 8, powerDelta := 0, params := paramsW }

/-- A well-formed Bond transaction from address 1 to the fresh address 2
carrying a public key. -/
def trxW : BondTx :=
  { sequence := 1, sender := 1, receiver := 2, pubKey := some 7
    amount := 10, fee := 1 }

/-- A sandbox with no accounts at all. -/
def sbEmpty : Sandbox :=
  { accounts := fun _ => none, validators := fun _ => none
    committee := [], curHeight := 8, powerDelta := 0, params := paramsW }

/-- Claim C1: a Bond transaction that passes validation debits the sender
by exactly amount+fee, raises the receiver's stake by exactly the amount,
stamps the receiver's last-bonding-height with the current height, adds
the amount to the committee-power delta, and leaves the fee readable
through `Fee()`. -/
theorem bond_success_effects (e : BondExecutor) (trx : BondTx) (sb sb2 : Sandbox)
    (e2 : BondExecutor) (h : e.Execute trx sb = (none, sb2, e2)) :
    sb2.accountBalance trx.sender
        = sb.accountBalance trx.sender - (trx.amount + trx.fee) ∧
    sb2.validatorStake trx.receiver = sb.validatorStake trx.receiver + trx.amount ∧
    sb2.validatorLastBonding trx.receiver = sb.curHeight ∧
    sb2.powerDelta = sb.powerDelta + trx.amount ∧
    e2.Fee = trx.fee := by
  obtain ⟨hv, hsb2, he2⟩ := execute_success_inv e trx sb sb2 e2 h
  obtain ⟨acc, hA, -, -, -⟩ := validateBond_none_inv e.strict trx sb hv
  obtain ⟨hbal, -, hstk, hlb, hpd⟩ := applyBond_effects trx sb acc hA
  subst hsb2 he2
  refine ⟨?_, hstk, hlb, hpd, rfl⟩
  rw [hbal]
  unfold Sandbox.accountBalance
  rw [hA]

/-- Witness for C1 at the concrete sandbox `sbW` and transaction `trxW`. -/
theorem bond_success_effects_wit :
    (applyBond trxW sbW).accountBalance trxW.sender
        = sbW.accountBalance trxW.sender - (trxW.amount + trxW.fee) ∧
    (applyBond trxW sbW).validatorStake trxW.receiver
        = sbW.validatorStake trxW.receiver + trxW.amount ∧
    (applyBond trxW sbW).validatorLastBonding trxW.receiver = sbW.curHeight ∧
    (applyBond trxW sbW).powerDelta = sbW.powerDelta + trxW.amount ∧
    (⟨true, trxW.fee⟩ : BondExecutor).Fee = trxW.fee :=
  bond_success_effects (NewBondExecutor true) trxW sbW (applyBond trxW sbW)
    ⟨true, trxW.fee⟩ rfl

/-- Claim C2: whenever `Execute` reports an error, in either mode, the
sandbox comes back exactly as it was handed in (and so no balance,
sequence, validator record or power-delta accumulator has changed), and
the executor is untouched as well. -/
theorem bond_error_rolls_back (e : BondExecutor) (trx : BondTx) (sb : Sandbox)
    (err : ErrorCode) (sb2 : Sandbox) (e2 : BondExecutor)
    (h : e.Execute trx sb = (some err, sb2, e2)) :
    sb2 = sb ∧ e2 = e := by
  unfold BondExecutor.Execute at h
  cases hv : validateBond e.strict trx sb <;> rw [hv] at h <;>
    simp [Prod.ext_iff] at h
  exact ⟨h.2.1.symm, h.2.2.symm⟩

/-- Witness for C2: on a sandbox with no accounts the executor rejects
with `InvalidAddress` and hands the sandbox back unchanged. -/
theorem bond_error_rolls_back_wit : sbEmpty = sbEmpty ∧
    NewBondExecutor true = NewBondExecutor true :=
  bond_error_rolls_back (NewBondExecutor true) trxW sbEmpty .invalidAddress
    sbEmpty (NewBondExecutor true) rfl

/-- Claim C3: once a Bond transaction has executed successfully, running
the identical transaction object against the resulting sandbox fails with
`InvalidSequence` (the sender's sequence was consumed), whichever
executor mode attempts the replay — it is never applied twice. -/
theorem bond_replay_rejected (e f : BondExecutor) (trx : BondTx)
    (sb sb2 : Sandbox) (e2 : BondExecutor)
    (h : e.Execute trx sb = (none, sb2, e2)) :
    (f.Execute trx sb2).1 = some .invalidSequence := by
  obtain ⟨hv, hsb2, -⟩ := execute_success_inv e trx sb sb2 e2 h
  obtain ⟨acc, hA, htre, hseq, -⟩ := validateBond_none_inv e.strict trx sb hv
  obtain ⟨-, hacc2, -, -, -⟩ := applyBond_effects trx sb acc hA
  subst hsb2
  rw [execute_fst]
  simp only [validateBond, hacc2, if_neg htre]
  rw [if_pos (by omega)]

/-- Witness for C3: replaying `trxW` on the sandbox produced by its own
successful execution is rejected with `InvalidSequence`. -/
theorem bond_replay_rejected_wit :
    ((NewBondExecutor true).Execute trxW (applyBond trxW sbW)).1
      = some .invalidSequence :=
  bond_replay_rejected (NewBondExecutor true) (NewBondExecutor true) trxW sbW
    (applyBond trxW sbW) ⟨true, trxW.fee⟩ rfl

/-- A bonded validator with a recorded public key, not unbonding and not
freshly joined at height 8. -/
def valW : Validator :=
  { pubKey := some 7, stake := 50, lastBondingHeight := 1
    lastJoinedHeight := 1, unbondingHeight := 0 }

/-- A sandbox whose committee holds the validator at address 2, with the
sender account at address 1. -/
def sbC : Sandbox :=
  { accounts := fun a => if a = 1 then some accW else none
    validators := fun a => if a = 2 then some valW else none
    committee := [2], curHeight := 8, powerDelta := 0, params := paramsW }

/-- A Bond transaction to the existing validator at address 2, carrying
no public key. -/
def trxC : BondTx :=
  { sequence := 1, sender := 1, receiver := 2, pubKey := none
    amount := 10, fee := 1 }

/-- Claim C4: when the receiver is a current committee member or is
freshly joined, and every mode-independent rule passes, the strict
executor rejects the transaction with `InvalidTx` while the lenient
executor accepts the identical transaction; and whenever neither
committee condition holds, strict and lenient validation agree on every
transaction and sandbox. -/
theorem bond_mode_duality (trx : BondTx) (sb : Sandbox) (acc : Account)
    (hacc : sb.accounts trx.sender = some acc)
    (htre : trx.receiver ≠ TreasuryAddress)
    (hseq : trx.sequence = acc.sequence + 1)
    (hbal : trx.amount + trx.fee ≤ acc.balance)
    (hunb : unbondingBlocked (sb.validators trx.receiver) sb.curHeight
      sb.params.unbondInterval = false)
    (hpk : pubKeyRuleOK (sb.validators trx.receiver) trx.pubKey = true)
    (hstk : stakeExceeded (sb.validators trx.receiver) trx.amount
      sb.params.maximumStake = false)
    (hcond : sb.committee.contains trx.receiver = true ∨
      freshlyJoined (sb.validators trx.receiver) sb.curHeight = true) :
    ((NewBondExecutor true).Execute trx sb).1 = some .invalidTx ∧
    ((NewBondExecutor false).Execute trx sb).1 = none ∧
    ∀ (trx2 : BondTx) (sb2 : Sandbox),
      sb2.committee.contains trx2.receiver = false →
      freshlyJoined (sb2.validators trx2.receiver) sb2.curHeight = false →
      validateBond true trx2 sb2 = validateBond false trx2 sb2 := by
  refine ⟨?_, ?_, ?_⟩
  · rw [execute_fst]
    simp only [NewBondExecutor, validateBond, hacc, if_neg htre,
      if_neg (not_ne_iff.mpr hseq), if_neg (Nat.not_lt.mpr hbal), Bool.true_and]
    rcases hcond with hc | hf
    · rw [if_pos hc]
    · by_cases hc : sb.committee.contains trx.receiver = true
      · rw [if_pos hc]
      · rw [if_neg hc, if_pos hf]
  · rw [execute_fst]
    have := validateBond_reduce false trx sb acc hacc htre hseq hbal
      (by simp) (by simp)
    simp only [NewBondExecutor] at this ⊢
    rw [this, if_neg (by simp [hunb]), if_neg (by simp [hpk]),
      if_neg (by simp [hstk])]
  · intro trx2 sb2 h1 h2
    have h1m : trx2.receiver ∉ sb2.committee := by simpa using h1
    unfold validateBond
    cases sb2.accounts trx2.sender <;> simp [h1m, h2]

/-- Witness for C4 at the committee scenario `sbC` and transaction
`trxC`: strict rejects with `InvalidTx`, lenient accepts. -/
theorem bond_mode_duality_wit :
    ((NewBondExecutor true).Execute trxC sbC).1 = some .invalidTx ∧
    ((NewBondExecutor false).Execute trxC sbC).1 = none :=
  ⟨(bond_mode_duality trxC sbC accW rfl (by decide) rfl (by decide)
      (by decide) (by decide) (by decide) (.inl (by decide))).1,
   (bond_mode_duality trxC sbC accW rfl (by decide) rfl (by decide)
      (by decide) (by decide) (by decide) (.inl (by decide))).2.1⟩

/-- A Bond transaction naming the treasury address as receiver. -/
def trxT : BondTx :=
  { sequence := 1, sender := 1, receiver := TreasuryAddress, pubKey := none
    amount := 5, fee := 1 }

/-- Counterexample to C5 as stated: with an unresolvable sender, a Bond
transaction to the treasury is rejected with `InvalidAddress`, not
`InvalidPublicKey` — the sender check precedes the treasury check, so
the claimed error does not hold regardless of the other fields. -/
theorem bond_treasury_cex :
    trxT.receiver = TreasuryAddress ∧
    ((NewBondExecutor true).Execute trxT sbEmpty).1 = some .invalidAddress ∧
    ((NewBondExecutor true).Execute trxT sbEmpty).1 ≠ some .invalidPublicKey := by
  refine ⟨rfl, rfl, by decide⟩

/-- Claim C5 amended: every Bond transaction whose sender resolves to an
existing account and whose receiver is the treasury address is rejected
with `InvalidPublicKey`, in both modes, regardless of the remaining
transaction fields. -/
theorem bond_treasury_rejected (e : BondExecutor) (trx : BondTx) (sb : Sandbox)
    (acc : Account) (hacc : sb.accounts trx.sender = some acc)
    (htre : trx.receiver = TreasuryAddress) :
    (e.Execute trx sb).1 = some .invalidPublicKey := by
  rw [execute_fst]
  simp only [validateBond, hacc, if_pos htre]

/-- Witness for the amended C5: a treasury-receiver transaction from the
known sender of `sbW` is rejected with `InvalidPublicKey`. -/
theorem bond_treasury_rejected_wit :
    ((NewBondExecutor false).Execute trxT sbW).1 = some .invalidPublicKey :=
  bond_treasury_rejected (NewBondExecutor false) trxT sbW accW rfl rfl

/-- Claim C6: with every other validation rule passing, a Bond
transaction succeeds exactly when the receiver's resulting stake
(existing stake + amount) stays within the configured maximum stake, in
either mode — so a resulting stake equal to the maximum is accepted and
one above it is rejected. -/
theorem bond_stake_boundary (e : BondExecutor) (trx : BondTx) (sb : Sandbox)
    (acc : Account) (hacc : sb.accounts trx.sender = some acc)
    (htre : trx.receiver ≠ TreasuryAddress)
    (hseq : trx.sequence = acc.sequence + 1)
    (hbal : trx.amount + trx.fee ≤ acc.balance)
    (hcom : sb.committee.contains trx.receiver = false)
    (hfresh : freshlyJoined (sb.validators trx.receiver) sb.curHeight = false)
    (hunb : unbondingBlocked (sb.validators trx.receiver) sb.curHeight
      sb.params.unbondInterval = false)
    (hpk : pubKeyRuleOK (sb.validators trx.receiver) trx.pubKey = true) :
    (e.Execute trx sb).1 = none ↔
      sb.validatorStake trx.receiver + trx.amount ≤ sb.params.maximumStake := by
  rw [execute_fst]
  rw [validateBond_reduce e.strict trx sb acc hacc htre hseq hbal
    (by rw [hcom, Bool.and_false]) (by rw [hfresh, Bool.and_false])]
  rw [if_neg (by simp [hunb]), if_neg (by simp [hpk])]
  by_cases hs : stakeExceeded (sb.validators trx.receiver) trx.amount
      sb.params.maximumStake = true
  · have hlt := (stakeExceeded_iff sb trx.receiver trx.amount
      sb.params.maximumStake).mp hs
    rw [if_pos hs]
    simp only [reduceCtorEq, false_iff]
    omega
  · have hle : ¬sb.params.maximumStake <
        sb.validatorStake trx.receiver + trx.amount :=
      fun hlt => hs ((stakeExceeded_iff sb trx.receiver trx.amount
        sb.params.maximumStake).mpr hlt)
    rw [if_neg hs]
    simp only [true_iff]
    omega

/-- A sender account rich enough to bond the maximum stake. -/
def accR : Account := { balance := 2000, sequence := 0 }

/-- A sandbox holding the rich sender at address 1 and no validators. -/
def sbR : Sandbox :=
  { accounts := fun a => if a = 1 then some accR else none
    validators := fun _ => none
    committee := [], curHeight := 8, powerDelta := 0, params := paramsW }

/-- A Bond transaction whose amount makes the resulting stake exactly the
maximum stake. -/
def trxMax : BondTx :=
  { sequence := 1, sender := 1, receiver := 2, pubKey := some 7
    amount := 1000, fee := 1 }

/-- A Bond transaction whose amount makes the resulting stake exceed the
maximum stake by one. -/
def trxOver : BondTx :=
  { sequence := 1, sender := 1, receiver := 2, pubKey := some 7
    amount := 1001, fee := 1 }

/-- Witness for C6 at the boundary: bonding to exactly the maximum stake
succeeds, one unit above it is rejected. -/
theorem bond_stake_boundary_wit :
    ((NewBondExecutor true).Execute trxMax sbR).1 = none ∧
    ((NewBondExecutor true).Execute trxOver sbR).1 ≠ none :=
  ⟨(bond_stake_boundary (NewBondExecutor true) trxMax sbR accR rfl (by decide)
      rfl (by decide) rfl rfl rfl rfl).mpr (by decide),
   fun h => absurd ((bond_stake_boundary (NewBondExecutor true) trxOver sbR accR
      rfl (by decide) rfl (by decide) rfl rfl rfl rfl).mp h) (by decide)⟩

/-- Claim C7: with the earlier validation rules passing, a Bond
transaction to a receiver validator carrying a recorded unbonding-height
whose cooldown span has not yet elapsed relative to the current height is
rejected with `InvalidHeight`, in either mode. -/
theorem bond_unbonding_rejected (e : BondExecutor) (trx : BondTx) (sb : Sandbox)
    (acc : Account) (val : Validator)
    (hacc : sb.accounts trx.sender = some acc)
    (htre : trx.receiver ≠ TreasuryAddress)
    (hseq : trx.sequence = acc.sequence + 1)
    (hbal : trx.amount + trx.fee ≤ acc.balance)
    (hcom : sb.committee.contains trx.receiver = false)
    (hfresh : freshlyJoined (sb.validators trx.receiver) sb.curHeight = false)
    (hval : sb.validators trx.receiver = some val)
    (hrec : val.unbondingHeight ≠ 0)
    (hcool : sb.curHeight - val.unbondingHeight < sb.params.unbondInterval) :
    (e.Execute trx sb).1 = some .invalidHeight := by
  rw [execute_fst]
  rw [validateBond_reduce e.strict trx sb acc hacc htre hseq hbal
    (by rw [hcom, Bool.and_false]) (by rw [hfresh, Bool.and_false])]
  rw [if_pos (by simp [unbondingBlocked, hval, hrec, hcool])]

/-- An unbonding validator: its unbonding-height equals the current
height of the sandboxes below, so the cooldown has not elapsed. -/
def valU : Validator :=
  { pubKey := some 7, stake := 50, lastBondingHeight := 1
    lastJoinedHeight := 0, unbondingHeight := 8 }

/-- A sandbox whose validator at address 2 is in the unbonding cooldown
(unbonding-height = current height = 8). -/
def sbU : Sandbox :=
  { accounts := fun a => if a = 1 then some accW else none
    validators := fun a => if a = 2 then some valU else none
    committee := [], curHeight := 8, powerDelta := 0, params := paramsW }

/-- Witness for C7: bonding to the unbonding validator of `sbU` is
rejected with `InvalidHeight`. -/
theorem bond_unbonding_rejected_wit :
    ((NewBondExecutor true).Execute trxC sbU).1 = some .invalidHeight :=
  bond_unbonding_rejected (NewBondExecutor true) trxC sbU accW valU rfl
    (by decide) rfl (by decide) rfl rfl rfl (by decide) (by decide)

/-- Claim C8: with the earlier validation rules passing, a Bond
transaction to an Unknown receiver that carries no public key is rejected
with `InvalidPublicKey`, and so is one to a receiver whose validator
record already holds a public key while the transaction carries one as
well. -/
theorem bond_pubkey_rule (e : BondExecutor) (trx : BondTx) (sb : Sandbox)
    (acc : Account) (hacc : sb.accounts trx.sender = some acc)
    (htre : trx.receiver ≠ TreasuryAddress)
    (hseq : trx.sequence = acc.sequence + 1)
    (hbal : trx.amount + trx.fee ≤ acc.balance)
    (hcom : sb.committee.contains trx.receiver = false)
    (hfresh : freshlyJoined (sb.validators trx.receiver) sb.curHeight = false)
    (hunb : unbondingBlocked (sb.validators trx.receiver) sb.curHeight
      sb.params.unbondInterval = false)
    (hcase : (sb.validators trx.receiver = none ∧ trx.pubKey = none) ∨
      (∃ val pk, sb.validators trx.receiver = some val ∧ val.pubKey = some pk ∧
        trx.pubKey.isSome = true)) :
    (e.Execute trx sb).1 = some .invalidPublicKey := by
  rw [execute_fst]
  rw [validateBond_reduce e.strict trx sb acc hacc htre hseq hbal
    (by rw [hcom, Bool.and_false]) (by rw [hfresh, Bool.and_false])]
  rw [if_neg (by simp [hunb])]
  have hko : pubKeyRuleOK (sb.validators trx.receiver) trx.pubKey = false := by
    rcases hcase with ⟨hv, hp⟩ | ⟨val, pk, hv, hvp, hp⟩
    · simp [pubKeyRuleOK, hv, hp]
    · rcases Option.isSome_iff_exists.mp hp with ⟨pk2, hp2⟩
      simp [pubKeyRuleOK, hv, hp2, hvp]
  rw [if_pos (by simp [hko])]

/-- Witness for C8: the transaction `trxC` carries no public key and its
receiver is Unknown in `sbW`, so it is rejected with `InvalidPublicKey`. -/
theorem bond_pubkey_rule_wit :
    ((NewBondExecutor true).Execute trxC sbW).1 = some .invalidPublicKey :=
  bond_pubkey_rule (NewBondExecutor true) trxC sbW accW rfl (by decide) rfl
    (by decide) rfl rfl rfl (.inl ⟨rfl, rfl⟩)

/-- A Bond transaction to the treasury whose sequence is wrong as well
(the sender of `sbW` sits at sequence 0, so 5 is not the successor). -/
def trxS : BondTx :=
  { sequence := 5, sender := 1, receiver := TreasuryAddress, pubKey := some 7
    amount := 1, fee := 0 }

/-- Counterexample to C9 as stated: the sender of `sbW` has sequence 0
and `trxS` carries sequence 5 ≠ 1, yet the rejection is
`InvalidPublicKey` (the treasury-receiver check precedes the sequence
check), not `InvalidSequence` — so the claim does not hold regardless of
the other fields' validity. -/
theorem bond_sequence_cex :
    sbW.accounts trxS.sender = some accW ∧ trxS.sequence ≠ accW.sequence + 1 ∧
    ((NewBondExecutor true).Execute trxS sbW).1 = some .invalidPublicKey ∧
    ((NewBondExecutor true).Execute trxS sbW).1 ≠ some .invalidSequence := by
  exact ⟨rfl, by decide, rfl, by decide⟩

/-- Claim C9 amended: whenever the sender's account exists and the
receiver is not the treasury address, a Bond transaction whose sequence
differs from the sender's sequence + 1 is rejected with
`InvalidSequence`, in either mode and regardless of the validity of its
remaining fields. -/
theorem bond_sequence_rejected (e : BondExecutor) (trx : BondTx) (sb : Sandbox)
    (acc : Account) (hacc : sb.accounts trx.sender = some acc)
    (htre : trx.receiver ≠ TreasuryAddress)
    (hseq : trx.sequence ≠ acc.sequence + 1) :
    (e.Execute trx sb).1 = some .invalidSequence := by
  rw [execute_fst]
  simp only [validateBond, hacc, if_neg htre]
  rw [if_pos hseq]

/-- Witness for the amended C9: a transaction with sequence 7 from the
sender of `sbW` (sequence 0) to a non-treasury address is rejected with
`InvalidSequence`. -/
theorem bond_sequence_rejected_wit :
    ((NewBondExecutor false).Execute
      { sequence := 7, sender := 1, receiver := 2, pubKey := some 7
        amount := 5, fee := 1 } sbW).1 = some .invalidSequence :=
  bond_sequence_rejected (NewBondExecutor false)
    { sequence := 7, sender := 1, receiver := 2, pubKey := some 7
      amount := 5, fee := 1 } sbW accW rfl (by decide) (by decide)

/-- Claim C10: deleting at the head or at the tail of an empty doubly
linked list is a total no-op — the list object is unchanged, `Values()`
is still the empty list and `Length()` is still 0. -/
theorem delete_on_empty_noop {α : Type} (l : DoublyLinkedList α)
    (h : l.Values = []) :
    l.DeleteAtHead = l ∧ l.DeleteAtTail = l ∧
    l.DeleteAtHead.Values = [] ∧ l.DeleteAtHead.Length = 0 ∧
    l.DeleteAtTail.Values = [] ∧ l.DeleteAtTail.Length = 0 := by
  obtain ⟨items⟩ := l
  obtain rfl : items = [] := h
  exact ⟨rfl, rfl, rfl, rfl, rfl, rfl⟩

/-- Witness for C10 at the freshly created empty list of naturals. -/
theorem delete_on_empty_noop_wit :
    (NewDoublyLinkedList Nat).DeleteAtHead = NewDoublyLinkedList Nat ∧
    (NewDoublyLinkedList Nat).DeleteAtTail = NewDoublyLinkedList Nat ∧
    (NewDoublyLinkedList Nat).DeleteAtHead.Values = [] ∧
    (NewDoublyLinkedList Nat).DeleteAtHead.Length = 0 ∧
    (NewDoublyLinkedList Nat).DeleteAtTail.Values = [] ∧
    (NewDoublyLinkedList Nat).DeleteAtTail.Length = 0 :=
  delete_on_empty_noop (NewDoublyLinkedList Nat) rfl
